import Mathlib

/-!
Shallow embedding of the chess rules engine in src/main.rs of the
gk_chess_engine repository, together with theorems checking the
natural-language specification's claims against it.

Conventions of the embedding:
* `usize` coordinates become `Nat`; `i32` differences become `Int`
  (`natAbsDiff` is `(a as i32 - b as i32).abs()`).
* The 8x8 array `squares` becomes a total function `Nat → Nat → Piece`;
  values outside the grid are never semantically relied upon — the
  in-bounds discipline of the source is itself verified (claim C10) via
  a literal, bounds-checked model of the one nontrivial loop
  (`is_path_clear`), which returns `none` exactly where the Rust loop
  would perform an out-of-bounds access or fail to terminate.
* All functions are pure; `&mut self` methods become `Board → Board`.
-/

/-- The 12-variant piece enumeration plus the empty square, from `enum Piece`. -/
inductive Piece where
  | Empty
  | PawnWhite
  | PawnBlack
  | RookWhite
  | RookBlack
  | KnightWhite
  | KnightBlack
  | BishopWhite
  | BishopBlack
  | QueenWhite
  | QueenBlack
  | KingWhite
  | KingBlack
deriving DecidableEq

/-- Embeds `Piece::is_white`. -/
def Piece.is_white (p : Piece) : Bool :=
  match p with
  | Piece.PawnWhite | Piece.RookWhite | Piece.KnightWhite
  | Piece.BishopWhite | Piece.QueenWhite | Piece.KingWhite => true
  | _ => false

/-- Embeds `Piece::is_black`. -/
def Piece.is_black (p : Piece) : Bool :=
  match p with
  | Piece.PawnBlack | Piece.RookBlack | Piece.KnightBlack
  | Piece.BishopBlack | Piece.QueenBlack | Piece.KingBlack => true
  | _ => false

/-- Embeds `Piece::is_empty`. -/
def Piece.is_empty (p : Piece) : Bool := p == Piece.Empty

/-- Embeds `Piece::is_same_color`. -/
def Piece.is_same_color (p q : Piece) : Bool :=
  (p.is_white && q.is_white) || (p.is_black && q.is_black)

/-- Embeds `matches!(piece, Piece::PawnWhite | Piece::PawnBlack)`. -/
abbrev is_pawn (p : Piece) : Prop := p = Piece.PawnWhite ∨ p = Piece.PawnBlack

/-- Embeds `matches!(piece, Piece::KingWhite | Piece::KingBlack)`. -/
abbrev is_king (p : Piece) : Prop := p = Piece.KingWhite ∨ p = Piece.KingBlack

/-- Embeds `struct GameState`: castling-rights flags and the en-passant target. -/
structure GameState where
  white_king_moved : Bool
  black_king_moved : Bool
  white_rook_queenside_moved : Bool
  white_rook_kingside_moved : Bool
  black_rook_queenside_moved : Bool
  black_rook_kingside_moved : Bool
  en_passant_target : Option (Nat × Nat)
deriving DecidableEq

/-- Embeds `GameState::default()`: nothing has moved, no en-passant target. -/
def initial_game_state : GameState :=
  { white_king_moved := false
    black_king_moved := false
    white_rook_queenside_moved := false
    white_rook_kingside_moved := false
    black_rook_queenside_moved := false
    black_rook_kingside_moved := false
    en_passant_target := none }

/-- Embeds `struct Board`. `squares` is the 8x8 grid as a total function on
coordinates; only indices below 8 are ever meaningful. -/
structure Board where
  squares : Nat → Nat → Piece
  white_to_move : Bool
  game_state : GameState

/-- Embeds `self.squares[r][c] = p` on an otherwise unchanged board. -/
def Board.set (b : Board) (r c : Nat) (p : Piece) : Board :=
  { b with squares := fun r' c' => if r' = r ∧ c' = c then p else b.squares r' c' }

/-- Embeds `self.game_state = g` on an otherwise unchanged board. -/
def set_gs (b : Board) (g : GameState) : Board := { b with game_state := g }

/-- Embeds `self.game_state.en_passant_target = t` on an otherwise unchanged board. -/
def set_ep (b : Board) (t : Option (Nat × Nat)) : Board :=
  set_gs b { b.game_state with en_passant_target := t }

/-- Embeds `self.white_to_move = w` on an otherwise unchanged board. -/
def set_turn (b : Board) (w : Bool) : Board := { b with white_to_move := w }

/-- Embeds `(a as i32 - b as i32).abs()` on `usize` values, as a `Nat`. -/
def natAbsDiff (a b : Nat) : Nat := ((b : Int) - (a : Int)).natAbs

/-- The direction computation of `is_path_clear`:
`if to > from { 1 } else if to < from { -1 } else { 0 }`. -/
def dirStep (frm dst : Nat) : Int := if dst > frm then 1 else if dst < frm then -1 else 0

/-- Number of unit steps from `(fr, fc)` to `(tr, tc)` along the loop
direction of `is_path_clear` (for aligned pairs the loop reaches the
destination after exactly this many steps). -/
def path_len (fr fc tr tc : Nat) : Nat := max (natAbsDiff fr tr) (natAbsDiff fc tc)

/-- The board coordinates the `is_path_clear` loop holds after `k` steps. -/
def path_square (fr fc tr tc : Nat) (k : Nat) : Int × Int :=
  ((fr : Int) + k * dirStep fr tr, (fc : Int) + k * dirStep fc tc)

/-- Embeds `Board::is_path_clear`: the loop inspects the squares at steps
`1 .. path_len - 1` (the strictly-between squares) and succeeds when all
are empty.  This is the loop's behaviour on the aligned from/to pairs it
is actually invoked with; the literal bounds-checked loop is
`is_path_clear_loop` below, and theorem `path_loop_totality` (claim C10)
proves the two agree on every actual invocation. -/
def is_path_clear (b : Board) (fr fc tr tc : Nat) : Bool :=
  (List.range' 1 (path_len fr fc tr tc - 1)).all fun k =>
    (b.squares (path_square fr fc tr tc k).1.toNat (path_square fr fc tr tc k).2.toNat).is_empty

/-- The body of the `while` loop of `Board::is_path_clear`, with an explicit
fuel parameter and with each array access bounds-checked: `none` models an
execution in which the Rust loop would index outside the 8x8 grid (a panic)
or fail to reach the destination within the fuel. -/
def path_loop (b : Board) (tr tc dr dc : Int) : Nat → Int → Int → Option Bool
  | 0, _, _ => none
  | fuel + 1, cr, cc =>
    if cr = (tr : Int) ∧ cc = (tc : Int) then some true
    else if 0 ≤ cr ∧ cr < 8 ∧ 0 ≤ cc ∧ cc < 8 then
      if (b.squares cr.toNat cc.toNat).is_empty then
        path_loop b tr tc dr dc fuel (cr + dr) (cc + dc)
      else some false
    else none

/-- Embeds `Board::is_path_clear` as the literal scanning loop (64 units of fuel,
far more than the at most 7 steps any in-grid straight line needs). -/
def is_path_clear_loop (b : Board) (fr fc tr tc : Nat) : Option Bool :=
  path_loop b tr tc (dirStep fr tr) (dirStep fc tc) 64
    ((fr : Int) + dirStep fr tr) ((fc : Int) + dirStep fc tc)

/-- Embeds `Board::is_pawn_move_valid`. -/
def is_pawn_move_valid (b : Board) (piece : Piece) (fr fc tr tc : Nat) : Bool :=
  let direction : Int := if piece.is_white then -1 else 1
  let start_row : Nat := if piece.is_white then 6 else 1
  let row_diff : Int := (tr : Int) - (fr : Int)
  let col_diff : Nat := natAbsDiff fc tc
  if col_diff = 0 then
    if row_diff = direction ∧ (b.squares tr tc).is_empty then true
    else if fr = start_row ∧ row_diff = 2 * direction ∧ (b.squares tr tc).is_empty then true
    else false
  else if col_diff = 1 ∧ row_diff = direction then
    if !(b.squares tr tc).is_empty then true
    else
      match b.game_state.en_passant_target with
      | some (er, ec) => if tr = er ∧ tc = ec then true else false
      | none => false
  else false

/-- Embeds `Board::is_rook_move_valid`. -/
def is_rook_move_valid (b : Board) (fr fc tr tc : Nat) : Bool :=
  if fr ≠ tr ∧ fc ≠ tc then false
  else is_path_clear b fr fc tr tc

/-- Embeds `Board::is_knight_move_valid`. -/
def is_knight_move_valid (fr fc tr tc : Nat) : Bool :=
  decide ((natAbsDiff fr tr = 2 ∧ natAbsDiff fc tc = 1) ∨
    (natAbsDiff fr tr = 1 ∧ natAbsDiff fc tc = 2))

/-- Embeds `Board::is_bishop_move_valid`. -/
def is_bishop_move_valid (b : Board) (fr fc tr tc : Nat) : Bool :=
  if natAbsDiff fr tr ≠ natAbsDiff fc tc then false
  else is_path_clear b fr fc tr tc

/-- Embeds `Board::is_queen_move_valid`. -/
def is_queen_move_valid (b : Board) (fr fc tr tc : Nat) : Bool :=
  is_rook_move_valid b fr fc tr tc || is_bishop_move_valid b fr fc tr tc

/-- Embeds `Board::can_piece_attack`. -/
def can_piece_attack (b : Board) (piece : Piece) (fr fc tr tc : Nat) : Bool :=
  match piece with
  | Piece.PawnWhite => decide ((tr : Int) - (fr : Int) = -1 ∧ natAbsDiff fc tc = 1)
  | Piece.PawnBlack => decide ((tr : Int) - (fr : Int) = 1 ∧ natAbsDiff fc tc = 1)
  | Piece.RookWhite | Piece.RookBlack => is_rook_move_valid b fr fc tr tc
  | Piece.KnightWhite | Piece.KnightBlack => is_knight_move_valid fr fc tr tc
  | Piece.BishopWhite | Piece.BishopBlack => is_bishop_move_valid b fr fc tr tc
  | Piece.QueenWhite | Piece.QueenBlack => is_queen_move_valid b fr fc tr tc
  | Piece.KingWhite | Piece.KingBlack =>
      decide (natAbsDiff fr tr ≤ 1 ∧ natAbsDiff fc tc ≤ 1)
  | Piece.Empty => false

/-- Embeds `Board::is_square_under_attack`: scan all squares for an attacker. -/
def is_square_under_attack (b : Board) (row col : Nat) (by_white : Bool) : Bool :=
  (List.range 8).any fun r =>
    (List.range 8).any fun c =>
      let piece := b.squares r c
      if piece.is_empty then false
      else if (by_white ∧ piece.is_white) ∨ (!by_white ∧ piece.is_black) then
        can_piece_attack b piece r c row col
      else false

/-- Embeds `for col in a..=b` over columns, as the list of visited values. -/
def rangeIncl (a b : Nat) : List Nat := List.range' a (b + 1 - a)

/-- Embeds `Board::can_castle`. -/
def can_castle (b : Board) (from_row from_col _to_row to_col : Nat) : Bool :=
  let piece := b.squares from_row from_col
  if ¬ is_king piece then false
  else
    let is_white := piece.is_white
    let expected_row : Nat := if is_white then 7 else 0
    if from_row ≠ expected_row ∨ from_col ≠ 4 then false
    else if (is_white ∧ b.game_state.white_king_moved) ∨
        (!is_white ∧ b.game_state.black_king_moved) then false
    else
      let is_kingside := to_col = 6
      let rook_col : Nat := if is_kingside then 7 else 0
      let rook_moved :=
        if is_white then
          if is_kingside then b.game_state.white_rook_kingside_moved
          else b.game_state.white_rook_queenside_moved
        else
          if is_kingside then b.game_state.black_rook_kingside_moved
          else b.game_state.black_rook_queenside_moved
      if rook_moved then false
      else
        let expected_rook := if is_white then Piece.RookWhite else Piece.RookBlack
        if b.squares expected_row rook_col ≠ expected_rook then false
        else
          let start_col : Nat := if is_kingside then 5 else 1
          let end_col : Nat := if is_kingside then 6 else 3
          if !((rangeIncl start_col end_col).all fun col =>
              (b.squares expected_row col).is_empty) then false
          else if !((rangeIncl 4 (min (max to_col 4) 6)).all fun col =>
              !(is_square_under_attack b expected_row col (!is_white))) then false
          else if !((rangeIncl (min 4 to_col) 4).all fun col =>
              !(is_square_under_attack b expected_row col (!is_white))) then false
          else true

/-- Embeds `Board::is_king_move_valid`. -/
def is_king_move_valid (b : Board) (fr fc tr tc : Nat) : Bool :=
  if natAbsDiff fr tr ≤ 1 ∧ natAbsDiff fc tc ≤ 1 then true
  else if natAbsDiff fr tr = 0 ∧ natAbsDiff fc tc = 2 then can_castle b fr fc tr tc
  else false

/-- Embeds `Board::is_piece_move_valid`. -/
def is_piece_move_valid (b : Board) (piece : Piece) (fr fc tr tc : Nat) : Bool :=
  match piece with
  | Piece.PawnWhite | Piece.PawnBlack => is_pawn_move_valid b piece fr fc tr tc
  | Piece.RookWhite | Piece.RookBlack => is_rook_move_valid b fr fc tr tc
  | Piece.KnightWhite | Piece.KnightBlack => is_knight_move_valid fr fc tr tc
  | Piece.BishopWhite | Piece.BishopBlack => is_bishop_move_valid b fr fc tr tc
  | Piece.QueenWhite | Piece.QueenBlack => is_queen_move_valid b fr fc tr tc
  | Piece.KingWhite | Piece.KingBlack => is_king_move_valid b fr fc tr tc
  | Piece.Empty => false

/-- Embeds `Board::find_king`: first matching square in row-major order. -/
def find_king (b : Board) (is_white : Bool) : Option (Nat × Nat) :=
  let target := if is_white then Piece.KingWhite else Piece.KingBlack
  (List.range 8).findSome? fun r =>
    (List.range 8).findSome? fun c =>
      if b.squares r c = target then some (r, c) else none

/-- Embeds `Board::make_move_unchecked`. -/
def make_move_unchecked (b : Board) (fr fc tr tc : Nat) : Board :=
  let piece := b.squares fr fc
  (b.set tr tc piece).set fr fc Piece.Empty

/-- Embeds `Board::would_be_in_check_after_move`. -/
def would_be_in_check_after_move (b : Board) (fr fc tr tc : Nat) : Bool :=
  let temp := make_move_unchecked b fr fc tr tc
  match find_king temp b.white_to_move with
  | some (kr, kc) => is_square_under_attack temp kr kc (!b.white_to_move)
  | none => false

/-- Embeds `Board::is_valid_move`. -/
def is_valid_move (b : Board) (fr fc tr tc : Nat) : Bool :=
  let piece := b.squares fr fc
  let target := b.squares tr tc
  if piece.is_empty then false
  else if (b.white_to_move ∧ piece.is_black) ∨ (!b.white_to_move ∧ piece.is_white) then false
  else if piece.is_same_color target then false
  else if !(is_piece_move_valid b piece fr fc tr tc) then false
  else if would_be_in_check_after_move b fr fc tr tc then false
  else true

/-- The en-passant-capture block of `Board::make_move` (remove the captured
pawn when the destination equals the en-passant target). -/
def ep_capture_step (b : Board) (piece : Piece) (tr tc : Nat) : Board :=
  match b.game_state.en_passant_target with
  | some (er, ec) =>
    if tr = er ∧ tc = ec then
      b.set (if piece.is_white then er + 1 else er - 1) ec Piece.Empty
    else b
  | none => b

/-- The castling block of `Board::make_move` (relocate the rook). -/
def castle_rook_step (b : Board) (fr tc : Nat) : Board :=
  let rook_from_col : Nat := if tc = 6 then 7 else 0
  let rook_to_col : Nat := if tc = 6 then 5 else 3
  (b.set fr rook_to_col (b.squares fr rook_from_col)).set fr rook_from_col Piece.Empty

/-- Embeds `Board::update_game_state_after_move`. -/
def update_game_state_after_move (b : Board) (piece : Piece) (fr fc : Nat) : Board :=
  match piece with
  | Piece.KingWhite => set_gs b { b.game_state with white_king_moved := true }
  | Piece.KingBlack => set_gs b { b.game_state with black_king_moved := true }
  | Piece.RookWhite =>
    if fr = 7 ∧ fc = 0 then set_gs b { b.game_state with white_rook_queenside_moved := true }
    else if fr = 7 ∧ fc = 7 then set_gs b { b.game_state with white_rook_kingside_moved := true }
    else b
  | Piece.RookBlack =>
    if fr = 0 ∧ fc = 0 then set_gs b { b.game_state with black_rook_queenside_moved := true }
    else if fr = 0 ∧ fc = 7 then set_gs b { b.game_state with black_rook_kingside_moved := true }
    else b
  | _ => b

/-- The side-effect part of `Board::make_move` (everything after the
validation early-return): en-passant capture and target update, castling
rook relocation, castling-rights bookkeeping, piece relocation, promotion,
turn switch — in the source's order. -/
def make_move_apply (b : Board) (fr fc tr tc : Nat) : Board :=
  let piece := b.squares fr fc
  let b1 :=
    if is_pawn piece then
      let b1a := ep_capture_step b piece tr tc
      if natAbsDiff fr tr = 2 then
        set_ep b1a (some ((if piece.is_white then fr - 1 else fr + 1), fc))
      else set_ep b1a none
    else set_ep b none
  let b2 := if is_king piece ∧ natAbsDiff fc tc = 2 then castle_rook_step b1 fr tc else b1
  let b3 := update_game_state_after_move b2 piece fr fc
  let b4 := (b3.set tr tc piece).set fr fc Piece.Empty
  let b5 :=
    if is_pawn piece ∧ ((piece.is_white ∧ tr = 0) ∨ (piece.is_black ∧ tr = 7)) then
      b4.set tr tc (if piece.is_white then Piece.QueenWhite else Piece.QueenBlack)
    else b4
  set_turn b5 (!b5.white_to_move)

/-- Embeds `Board::make_move`: validate, then either apply all side effects and
return `true`, or return `false` leaving the board untouched. -/
def make_move (b : Board) (fr fc tr tc : Nat) : Bool × Board :=
  if is_valid_move b fr fc tr tc then (true, make_move_apply b fr fc tr tc)
  else (false, b)

/-- A sequence of `make_move` calls, keeping the board each returns
(whether the move was accepted or rejected). -/
def apply_moves (b : Board) : List (Nat × Nat × Nat × Nat) → Board
  | [] => b
  | m :: ms => apply_moves (make_move b m.1 m.2.1 m.2.2.1 m.2.2.2).2 ms

/-- Embeds `Board::is_in_check`. -/
def is_in_check (b : Board) (is_white : Bool) : Bool :=
  match find_king b is_white with
  | some (kr, kc) => is_square_under_attack b kr kc (!is_white)
  | none => false

/-- The exhaustive `is_valid_move` probe shared verbatim by
`Board::is_checkmate` and `Board::is_stalemate`. -/
def has_any_valid_move (b : Board) : Bool :=
  (List.range 8).any fun from_row =>
    (List.range 8).any fun from_col =>
      let piece := b.squares from_row from_col
      if piece.is_empty then false
      else if (b.white_to_move ∧ piece.is_white) ∨ (!b.white_to_move ∧ piece.is_black) then
        (List.range 8).any fun to_row =>
          (List.range 8).any fun to_col =>
            is_valid_move b from_row from_col to_row to_col
      else false

/-- Embeds `Board::is_checkmate`. -/
def is_checkmate (b : Board) : Bool :=
  if !(is_in_check b b.white_to_move) then false
  else !(has_any_valid_move b)

/-- Embeds `Board::is_stalemate`. -/
def is_stalemate (b : Board) : Bool :=
  if is_in_check b b.white_to_move then false
  else !(has_any_valid_move b)

/-- The black back rank of `Board::new` (row 0). -/
def back_rank_black : Nat → Piece
  | 0 => Piece.RookBlack
  | 1 => Piece.KnightBlack
  | 2 => Piece.BishopBlack
  | 3 => Piece.QueenBlack
  | 4 => Piece.KingBlack
  | 5 => Piece.BishopBlack
  | 6 => Piece.KnightBlack
  | 7 => Piece.RookBlack
  | _ => Piece.Empty

/-- The white back rank of `Board::new` (row 7). -/
def back_rank_white : Nat → Piece
  | 0 => Piece.RookWhite
  | 1 => Piece.KnightWhite
  | 2 => Piece.BishopWhite
  | 3 => Piece.QueenWhite
  | 4 => Piece.KingWhite
  | 5 => Piece.BishopWhite
  | 6 => Piece.KnightWhite
  | 7 => Piece.RookWhite
  | _ => Piece.Empty

/-- The squares of the standard starting position. -/
def standard_squares : Nat → Nat → Piece := fun r c =>
  if r = 0 then back_rank_black c
  else if r = 1 then Piece.PawnBlack
  else if r = 6 then Piece.PawnWhite
  else if r = 7 then back_rank_white c
  else Piece.Empty

/-- Embeds `Board::new`: the standard starting position, white to move. -/
def Board.new : Board :=
  { squares := standard_squares, white_to_move := true, game_state := initial_game_state }

/-- The from/to pairs `is_path_clear` is ever invoked with: purely
horizontal, purely vertical, or exactly diagonal. -/
def aligned (fr fc tr tc : Nat) : Prop :=
  fr = tr ∨ fc = tc ∨ natAbsDiff fr tr = natAbsDiff fc tc

/-- Embeds `Board::is_rook_move_valid` with the literal path loop (`none` = panic
or divergence of the loop). -/
def is_rook_move_valid_loop (b : Board) (fr fc tr tc : Nat) : Option Bool :=
  if fr ≠ tr ∧ fc ≠ tc then some false
  else is_path_clear_loop b fr fc tr tc

/-- Embeds `Board::is_bishop_move_valid` with the literal path loop. -/
def is_bishop_move_valid_loop (b : Board) (fr fc tr tc : Nat) : Option Bool :=
  if natAbsDiff fr tr ≠ natAbsDiff fc tc then some false
  else is_path_clear_loop b fr fc tr tc

/-- Embeds `Board::is_queen_move_valid` with the literal path loop (Rust `||`
short-circuits, and a panic in either operand is a panic). -/
def is_queen_move_valid_loop (b : Board) (fr fc tr tc : Nat) : Option Bool :=
  match is_rook_move_valid_loop b fr fc tr tc with
  | some true => some true
  | some false => is_bishop_move_valid_loop b fr fc tr tc
  | none => none

/-- Spec §4.2 check 4, in the spec's words: applying the move to a scratch
copy of the board must not leave the moving side's own king under attack
afterward (vacuously safe if that king is absent). -/
def king_safe_after (b : Board) (fr fc tr tc : Nat) : Prop :=
  ∀ kr kc, find_king (make_move_unchecked b fr fc tr tc) b.white_to_move = some (kr, kc) →
    is_square_under_attack (make_move_unchecked b fr fc tr tc) kr kc (!b.white_to_move) = false

/-- The castling preconditions in the claim's (and spec §4.2's) words, for a
king move of zero rows and two columns from `(fr, fc)` to `(fr, tc)`:
the mover is a king of some color `w` on its original square, that king has
never moved, the chosen side's rook (column 7 kingside, column 0 queenside)
has never moved and still stands on its original square, every square
strictly between king and rook is empty, and none of the king's origin,
crossed square `(fc + tc) / 2`, and destination is attacked by the opposing
color on the pre-move board. -/
def castling_pre (b : Board) (fr fc tc : Nat) : Prop :=
  ∃ w : Bool,
    b.squares fr fc = (if w then Piece.KingWhite else Piece.KingBlack) ∧
    fr = (if w then 7 else 0) ∧
    fc = 4 ∧
    (if w then b.game_state.white_king_moved else b.game_state.black_king_moved) = false ∧
    (if w then
        (if tc = 6 then b.game_state.white_rook_kingside_moved
         else b.game_state.white_rook_queenside_moved)
      else
        (if tc = 6 then b.game_state.black_rook_kingside_moved
         else b.game_state.black_rook_queenside_moved)) = false ∧
    b.squares fr (if tc = 6 then 7 else 0) = (if w then Piece.RookWhite else Piece.RookBlack) ∧
    (∀ c : Nat, min fc (if tc = 6 then 7 else 0) < c → c < max fc (if tc = 6 then 7 else 0) →
      (b.squares fr c).is_empty = true) ∧
    (∀ c : Nat, c = fc ∨ c = (fc + tc) / 2 ∨ c = tc →
      is_square_under_attack b fr c (!w) = false)

/-- The pawn's forward direction (white decreases rows). -/
def pawn_dir (p : Piece) : Int := if p.is_white then -1 else 1

/-- The pawn's starting row (row 6 for white, row 1 for black). -/
def pawn_start_row (p : Piece) : Nat := if p.is_white then 6 else 1

/-- Pawn shape rule as the code actually behaves (the amended claim C5):
one forward onto an empty square; two forward from the start row onto an
empty destination, the intermediate square not checked; or one diagonal
forward when the destination is non-empty (a piece of either color) or
equals the en-passant target. -/
def pawn_shape_spec (b : Board) (p : Piece) (fr fc tr tc : Nat) : Prop :=
  (tc = fc ∧ (tr : Int) = (fr : Int) + pawn_dir p ∧ (b.squares tr tc).is_empty = true) ∨
  (tc = fc ∧ fr = pawn_start_row p ∧ (tr : Int) = (fr : Int) + 2 * pawn_dir p ∧
    (b.squares tr tc).is_empty = true) ∨
  (natAbsDiff fc tc = 1 ∧ (tr : Int) = (fr : Int) + pawn_dir p ∧
    ((b.squares tr tc).is_empty = false ∨ b.game_state.en_passant_target = some (tr, tc)))

/-- Pawn shape rule exactly as claim C5 states it, with the diagonal case
demanding an *enemy* piece on the destination. -/
abbrev pawn_shape_claim (b : Board) (p : Piece) (fr fc tr tc : Nat) : Prop :=
  (tc = fc ∧ (tr : Int) = (fr : Int) + pawn_dir p ∧ (b.squares tr tc).is_empty = true) ∨
  (tc = fc ∧ fr = pawn_start_row p ∧ (tr : Int) = (fr : Int) + 2 * pawn_dir p ∧
    (b.squares tr tc).is_empty = true) ∨
  (natAbsDiff fc tc = 1 ∧ (tr : Int) = (fr : Int) + pawn_dir p ∧
    ((p.is_white = true ∧ (b.squares tr tc).is_black = true) ∨
     (p.is_black = true ∧ (b.squares tr tc).is_white = true) ∨
     b.game_state.en_passant_target = some (tr, tc)))

/-- The move from `(fr, fc)` to `(tr, tc)` is a pawn advancing two squares
from its start rank (claim C4's characterisation). -/
abbrev double_push_spec (b : Board) (fr fc tr tc : Nat) : Prop :=
  (b.squares fr fc = Piece.PawnWhite ∧ fr = 6 ∧ tr = 4 ∧ tc = fc) ∨
  (b.squares fr fc = Piece.PawnBlack ∧ fr = 1 ∧ tr = 3 ∧ tc = fc)

/-- The attack relation in claim C7's words, for the piece occupying
`(r, c)`: a pawn attacks the square diagonally forward on each side
regardless of occupancy; a king attacks the squares within one row and one
column; rook, knight, bishop and queen attack exactly what their movement
shape rules permit. -/
def attack_rule (b : Board) (r c row col : Nat) : Prop :=
  match b.squares r c with
  | Piece.PawnWhite => (row : Int) - (r : Int) = -1 ∧ natAbsDiff c col = 1
  | Piece.PawnBlack => (row : Int) - (r : Int) = 1 ∧ natAbsDiff c col = 1
  | Piece.RookWhite | Piece.RookBlack => is_rook_move_valid b r c row col = true
  | Piece.KnightWhite | Piece.KnightBlack => is_knight_move_valid r c row col = true
  | Piece.BishopWhite | Piece.BishopBlack => is_bishop_move_valid b r c row col = true
  | Piece.QueenWhite | Piece.QueenBlack => is_queen_move_valid b r c row col = true
  | Piece.KingWhite | Piece.KingBlack => natAbsDiff r row ≤ 1 ∧ natAbsDiff c col ≤ 1
  | Piece.Empty => False

/-- Claim C7's specification of `is_square_under_attack`: some occupied
square of the attacking color holds a piece whose attack rule reaches the
target. -/
def attack_spec (b : Board) (row col : Nat) (by_white : Bool) : Prop :=
  ∃ r : Fin 8, ∃ c : Fin 8,
    (b.squares r c).is_empty = false ∧
    (if by_white then (b.squares r c).is_white = true else (b.squares r c).is_black = true) ∧
    attack_rule b (r : Nat) (c : Nat) row col

/-- Step 4 of spec section 4.4, in the spec's words: moving a king sets that color's
king-moved flag; moving a rook from its original starting square sets the
matching side-specific rook-moved flag; nothing else changes any flag. -/
def spec_update_rights (b : Board) (piece : Piece) (fr fc : Nat) : Board :=
  set_gs b
    { b.game_state with
      white_king_moved := b.game_state.white_king_moved || decide (piece = Piece.KingWhite)
      black_king_moved := b.game_state.black_king_moved || decide (piece = Piece.KingBlack)
      white_rook_queenside_moved := b.game_state.white_rook_queenside_moved ||
        decide (piece = Piece.RookWhite ∧ fr = 7 ∧ fc = 0)
      white_rook_kingside_moved := b.game_state.white_rook_kingside_moved ||
        decide (piece = Piece.RookWhite ∧ fr = 7 ∧ fc = 7)
      black_rook_queenside_moved := b.game_state.black_rook_queenside_moved ||
        decide (piece = Piece.RookBlack ∧ fr = 0 ∧ fc = 0)
      black_rook_kingside_moved := b.game_state.black_rook_kingside_moved ||
        decide (piece = Piece.RookBlack ∧ fr = 0 ∧ fc = 7) }

/-- Steps 1-7 of spec section 4.4 written from the spec's words, in the spec's order:
1. en-passant capture removes the opposing pawn one rank behind the target;
2. a two-square pawn advance sets the en-passant target to the intermediate
   square `(fr + tr) / 2`, every other move clears it;
3. a king displaced two columns relocates the chosen side's rook from its
   origin to the square adjacent to the king's destination;
4. castling-rights bookkeeping (`spec_update_rights`);
5. the piece moves from `from` to `to`, clearing `from`;
6. a pawn reaching the farthest rank becomes a queen of its color;
7. the side to move flips. -/
def spec_apply_move (b : Board) (fr fc tr tc : Nat) : Board :=
  let piece := b.squares fr fc
  let s1 :=
    if is_pawn piece ∧ b.game_state.en_passant_target = some (tr, tc) then
      b.set (if piece.is_white then tr + 1 else tr - 1) tc Piece.Empty
    else b
  let s2 :=
    if is_pawn piece ∧ natAbsDiff fr tr = 2 then set_ep s1 (some ((fr + tr) / 2, fc))
    else set_ep s1 none
  let s3 :=
    if is_king piece ∧ natAbsDiff fc tc = 2 then
      (s2.set fr (if tc = 6 then 5 else 3) (s2.squares fr (if tc = 6 then 7 else 0))).set
        fr (if tc = 6 then 7 else 0) Piece.Empty
    else s2
  let s4 := spec_update_rights s3 piece fr fc
  let s5 := (s4.set tr tc piece).set fr fc Piece.Empty
  let s6 :=
    if is_pawn piece ∧ ((piece.is_white ∧ tr = 0) ∨ (piece.is_black ∧ tr = 7)) then
      s5.set tr tc (if piece.is_white then Piece.QueenWhite else Piece.QueenBlack)
    else s5
  set_turn s6 (!s6.white_to_move)

/-- Pointwise order on the six castling-rights flags (claim C8). -/
def gs_flag_le (g h : GameState) : Prop :=
  (g.white_king_moved = true → h.white_king_moved = true) ∧
  (g.black_king_moved = true → h.black_king_moved = true) ∧
  (g.white_rook_queenside_moved = true → h.white_rook_queenside_moved = true) ∧
  (g.white_rook_kingside_moved = true → h.white_rook_kingside_moved = true) ∧
  (g.black_rook_queenside_moved = true → h.black_rook_queenside_moved = true) ∧
  (g.black_rook_kingside_moved = true → h.black_rook_kingside_moved = true)

/-- The six castling-rights flags, bundled for equality statements. -/
def castle_flags (g : GameState) : Bool × Bool × Bool × Bool × Bool × Bool :=
  (g.white_king_moved, g.black_king_moved, g.white_rook_queenside_moved,
   g.white_rook_kingside_moved, g.black_rook_queenside_moved, g.black_rook_kingside_moved)

/-- Standard position with f1 and g1 vacated: white may castle kingside. -/
def castle_board : Board :=
  { squares := fun r c => if r = 7 ∧ (c = 5 ∨ c = 6) then Piece.Empty else standard_squares r c,
    white_to_move := true, game_state := initial_game_state }

/-- A white pawn on a2 with a *white* rook on b3: the diagonal pawn move
a2–b3 is accepted by `is_pawn_move_valid` although the target is friendly. -/
def cex_board : Board :=
  { squares := fun r c =>
      if r = 6 ∧ c = 0 then Piece.PawnWhite
      else if r = 5 ∧ c = 1 then Piece.RookWhite
      else Piece.Empty,
    white_to_move := true, game_state := initial_game_state }

/-- A position in which white can capture en passant: white pawn on (3,4),
black pawn on (3,3), en-passant target (2,3). -/
def ep_board : Board :=
  { squares := fun r c =>
      if r = 3 ∧ c = 4 then Piece.PawnWhite
      else if r = 3 ∧ c = 3 then Piece.PawnBlack
      else Piece.Empty,
    white_to_move := true,
    game_state := { initial_game_state with en_passant_target := some (2, 3) } }

/-- A lone white king on e1. -/
def king_board : Board :=
  { squares := fun r c => if r = 7 ∧ c = 4 then Piece.KingWhite else Piece.Empty,
    white_to_move := true, game_state := initial_game_state }

/-! Helper lemmas: projections of the state-update primitives. -/

@[simp] lemma Board.set_white_to_move (b : Board) (r c : Nat) (p : Piece) :
    (b.set r c p).white_to_move = b.white_to_move := rfl

@[simp] lemma Board.set_game_state (b : Board) (r c : Nat) (p : Piece) :
    (b.set r c p).game_state = b.game_state := rfl

lemma Board.set_squares (b : Board) (r c : Nat) (p : Piece) (r' c' : Nat) :
    (b.set r c p).squares r' c' = if r' = r ∧ c' = c then p else b.squares r' c' := rfl

@[simp] lemma set_gs_squares (b : Board) (g : GameState) : (set_gs b g).squares = b.squares := rfl

@[simp] lemma set_gs_white_to_move (b : Board) (g : GameState) :
    (set_gs b g).white_to_move = b.white_to_move := rfl

@[simp] lemma set_gs_game_state (b : Board) (g : GameState) : (set_gs b g).game_state = g := rfl

@[simp] lemma set_ep_squares (b : Board) (t : Option (Nat × Nat)) :
    (set_ep b t).squares = b.squares := rfl

@[simp] lemma set_ep_white_to_move (b : Board) (t : Option (Nat × Nat)) :
    (set_ep b t).white_to_move = b.white_to_move := rfl

@[simp] lemma set_ep_target (b : Board) (t : Option (Nat × Nat)) :
    (set_ep b t).game_state.en_passant_target = t := rfl

@[simp] lemma set_ep_wkm (b : Board) (t : Option (Nat × Nat)) :
    (set_ep b t).game_state.white_king_moved = b.game_state.white_king_moved := rfl

@[simp] lemma set_ep_bkm (b : Board) (t : Option (Nat × Nat)) :
    (set_ep b t).game_state.black_king_moved = b.game_state.black_king_moved := rfl

@[simp] lemma set_ep_wrq (b : Board) (t : Option (Nat × Nat)) :
    (set_ep b t).game_state.white_rook_queenside_moved
      = b.game_state.white_rook_queenside_moved := rfl

@[simp] lemma set_ep_wrk (b : Board) (t : Option (Nat × Nat)) :
    (set_ep b t).game_state.white_rook_kingside_moved
      = b.game_state.white_rook_kingside_moved := rfl

@[simp] lemma set_ep_brq (b : Board) (t : Option (Nat × Nat)) :
    (set_ep b t).game_state.black_rook_queenside_moved
      = b.game_state.black_rook_queenside_moved := rfl

@[simp] lemma set_ep_brk (b : Board) (t : Option (Nat × Nat)) :
    (set_ep b t).game_state.black_rook_kingside_moved
      = b.game_state.black_rook_kingside_moved := rfl

@[simp] lemma set_turn_squares (b : Board) (w : Bool) : (set_turn b w).squares = b.squares := rfl

@[simp] lemma set_turn_white_to_move (b : Board) (w : Bool) :
    (set_turn b w).white_to_move = w := rfl

@[simp] lemma set_turn_game_state (b : Board) (w : Bool) :
    (set_turn b w).game_state = b.game_state := rfl

@[simp] lemma ep_capture_step_white_to_move (b : Board) (p : Piece) (tr tc : Nat) :
    (ep_capture_step b p tr tc).white_to_move = b.white_to_move := by
  unfold ep_capture_step
  cases b.game_state.en_passant_target with
  | none => rfl
  | some e => cases e with
    | mk er ec => dsimp only; split <;> rfl

@[simp] lemma ep_capture_step_game_state (b : Board) (p : Piece) (tr tc : Nat) :
    (ep_capture_step b p tr tc).game_state = b.game_state := by
  unfold ep_capture_step
  cases b.game_state.en_passant_target with
  | none => rfl
  | some e => cases e with
    | mk er ec => dsimp only; split <;> rfl

@[simp] lemma castle_rook_step_white_to_move (b : Board) (fr tc : Nat) :
    (castle_rook_step b fr tc).white_to_move = b.white_to_move := rfl

@[simp] lemma castle_rook_step_game_state (b : Board) (fr tc : Nat) :
    (castle_rook_step b fr tc).game_state = b.game_state := rfl

@[simp] lemma update_gs_white_to_move (b : Board) (p : Piece) (fr fc : Nat) :
    (update_game_state_after_move b p fr fc).white_to_move = b.white_to_move := by
  unfold update_game_state_after_move
  cases p <;> first
    | rfl
    | (dsimp only; split <;> (try split) <;> rfl)

@[simp] lemma update_gs_squares (b : Board) (p : Piece) (fr fc : Nat) :
    (update_game_state_after_move b p fr fc).squares = b.squares := by
  unfold update_game_state_after_move
  cases p <;> first
    | rfl
    | (dsimp only; split <;> (try split) <;> rfl)

@[simp] lemma update_gs_ep (b : Board) (p : Piece) (fr fc : Nat) :
    (update_game_state_after_move b p fr fc).game_state.en_passant_target
      = b.game_state.en_passant_target := by
  unfold update_game_state_after_move
  cases p <;> first
    | rfl
    | (dsimp only; split <;> (try split) <;> rfl)
/-! Claim C10: totality and in-bounds discipline of the path loop. -/

lemma dirStep_self (a : Nat) : dirStep a a = 0 := by simp [dirStep]

lemma coord_hit (a c : Nat) : (a : Int) + (natAbsDiff a c) * dirStep a c = c := by
  unfold natAbsDiff dirStep
  rcases Nat.lt_trichotomy a c with h | h | h
  · rw [if_pos h]; omega
  · subst h; rw [if_neg (lt_irrefl a), if_neg (lt_irrefl a)]; omega
  · rw [if_neg (by omega : ¬ a < c), if_pos h]; omega

lemma coord_miss (a c k : Nat) (h : k < natAbsDiff a c) :
    (a : Int) + k * dirStep a c ≠ (c : Int) := by
  unfold natAbsDiff at h
  unfold dirStep
  rcases Nat.lt_trichotomy a c with h2 | h2 | h2
  · rw [if_pos h2]; omega
  · omega
  · rw [if_neg (by omega : ¬ a < c), if_pos h2]; omega

lemma coord_bounds (a c k : Nat) (ha : a < 8) (hc : c < 8) (h : k ≤ natAbsDiff a c) :
    0 ≤ (a : Int) + k * dirStep a c ∧ (a : Int) + k * dirStep a c < 8 := by
  unfold natAbsDiff at h
  unfold dirStep
  rcases Nat.lt_trichotomy a c with h2 | h2 | h2
  · rw [if_pos h2]; omega
  · subst h2; rw [if_neg (lt_irrefl a), if_neg (lt_irrefl a)]; omega
  · rw [if_neg (by omega : ¬ a < c), if_pos h2]; omega

lemma aligned_coords (fr fc tr tc : Nat) (h : aligned fr fc tr tc) :
    (fr = tr ∨ natAbsDiff fr tr = path_len fr fc tr tc) ∧
    (fc = tc ∨ natAbsDiff fc tc = path_len fr fc tr tc) := by
  unfold aligned at h
  unfold path_len natAbsDiff at *
  omega

lemma path_len_le (fr fc tr tc : Nat) (hfr : fr < 8) (hfc : fc < 8) (htr : tr < 8)
    (htc : tc < 8) : path_len fr fc tr tc ≤ 7 := by
  unfold path_len natAbsDiff
  omega

lemma path_loop_reaches (b : Board) (fr fc tr tc : Nat)
    (hfr : fr < 8) (hfc : fc < 8) (htr : tr < 8) (htc : tc < 8)
    (hrow : fr = tr ∨ natAbsDiff fr tr = path_len fr fc tr tc)
    (hcol : fc = tc ∨ natAbsDiff fc tc = path_len fr fc tr tc) :
    ∀ fuel j, 1 ≤ j → j ≤ path_len fr fc tr tc → path_len fr fc tr tc - j < fuel →
      path_loop b tr tc (dirStep fr tr) (dirStep fc tc) fuel
          (path_square fr fc tr tc j).1 (path_square fr fc tr tc j).2
        = some ((List.range' j (path_len fr fc tr tc - j)).all fun k =>
            (b.squares (path_square fr fc tr tc k).1.toNat
              (path_square fr fc tr tc k).2.toNat).is_empty) := by
  intro fuel
  induction fuel with
  | zero => intro j _ _ h3; omega
  | succ fuel ih =>
    intro j h1 h2 h3
    by_cases hj : j = path_len fr fc tr tc
    · have hr : (path_square fr fc tr tc j).1 = (tr : Int) := by
        rcases hrow with h | h
        · simp [path_square, h, dirStep_self]
        · rw [path_square]
          dsimp only
          rw [hj, ← h]
          exact coord_hit fr tr
      have hc2 : (path_square fr fc tr tc j).2 = (tc : Int) := by
        rcases hcol with h | h
        · simp [path_square, h, dirStep_self]
        · rw [path_square]
          dsimp only
          rw [hj, ← h]
          exact coord_hit fc tc
      rw [path_loop, if_pos ⟨hr, hc2⟩, hj, Nat.sub_self]
      simp [List.range']
    · have hjlt : j < path_len fr fc tr tc := lt_of_le_of_ne h2 hj
      have hne : ¬((path_square fr fc tr tc j).1 = (tr : Int) ∧
          (path_square fr fc tr tc j).2 = (tc : Int)) := by
        rcases hrow with h | h
        · rcases hcol with h4 | h4
          · exfalso
            have hz : path_len fr fc tr tc = 0 := by
              unfold path_len natAbsDiff
              omega
            omega
          · intro hcon
            exact coord_miss fc tc j (by omega) hcon.2
        · intro hcon
          exact coord_miss fr tr j (by omega) hcon.1
      have hb1 : 0 ≤ (path_square fr fc tr tc j).1 ∧ (path_square fr fc tr tc j).1 < 8 := by
        rcases hrow with h | h
        · rw [path_square]
          dsimp only
          rw [h, dirStep_self]
          constructor <;> omega
        · exact coord_bounds fr tr j hfr htr (by omega)
      have hb2 : 0 ≤ (path_square fr fc tr tc j).2 ∧ (path_square fr fc tr tc j).2 < 8 := by
        rcases hcol with h | h
        · rw [path_square]
          dsimp only
          rw [h, dirStep_self]
          constructor <;> omega
        · exact coord_bounds fc tc j hfc htc (by omega)
      rw [path_loop, if_neg hne, if_pos ⟨hb1.1, hb1.2, hb2.1, hb2.2⟩]
      have hrange : List.range' j (path_len fr fc tr tc - j)
          = j :: List.range' (j + 1) (path_len fr fc tr tc - (j + 1)) := by
        have hn : path_len fr fc tr tc - j = (path_len fr fc tr tc - (j + 1)) + 1 := by omega
        rw [hn, List.range'_succ]
      rw [hrange, List.all_cons]
      by_cases hemp : (b.squares (path_square fr fc tr tc j).1.toNat
          (path_square fr fc tr tc j).2.toNat).is_empty = true
      · rw [if_pos hemp, hemp, Bool.true_and]
        have hstep1 : (path_square fr fc tr tc j).1 + dirStep fr tr
            = (path_square fr fc tr tc (j + 1)).1 := by
          rw [path_square, path_square]
          dsimp only
          push_cast
          ring
        have hstep2 : (path_square fr fc tr tc j).2 + dirStep fc tc
            = (path_square fr fc tr tc (j + 1)).2 := by
          rw [path_square, path_square]
          dsimp only
          push_cast
          ring
        rw [hstep1, hstep2]
        exact ih (j + 1) (by omega) (by omega) (by omega)
      · rw [if_neg hemp]
        rw [Bool.not_eq_true] at hemp
        rw [hemp, Bool.false_and]

lemma is_path_clear_loop_eq (b : Board) (fr fc tr tc : Nat)
    (hfr : fr < 8) (hfc : fc < 8) (htr : tr < 8) (htc : tc < 8)
    (hal : aligned fr fc tr tc) :
    is_path_clear_loop b fr fc tr tc = some (is_path_clear b fr fc tr tc) := by
  obtain ⟨hrow, hcol⟩ := aligned_coords fr fc tr tc hal
  by_cases hn : path_len fr fc tr tc = 0
  · have hfr_tr : fr = tr := by
      unfold path_len natAbsDiff at hn
      omega
    have hfc_tc : fc = tc := by
      unfold path_len natAbsDiff at hn
      omega
    subst hfr_tr
    subst hfc_tc
    unfold is_path_clear_loop is_path_clear
    rw [dirStep_self, dirStep_self]
    have h64 : (64 : Nat) = 63 + 1 := rfl
    rw [h64, path_loop, if_pos ⟨by omega, by omega⟩, hn]
    simp [List.range']
  · have h1 : 1 ≤ path_len fr fc tr tc := Nat.one_le_iff_ne_zero.mpr hn
    have hle : path_len fr fc tr tc ≤ 7 := path_len_le fr fc tr tc hfr hfc htr htc
    have hmain := path_loop_reaches b fr fc tr tc hfr hfc htr htc hrow hcol 64 1 le_rfl h1
      (by omega)
    unfold is_path_clear_loop is_path_clear
    have hp1 : (path_square fr fc tr tc 1).1 = (fr : Int) + dirStep fr tr := by
      rw [path_square]
      dsimp only
      push_cast
      ring
    have hp2 : (path_square fr fc tr tc 1).2 = (fc : Int) + dirStep fc tc := by
      rw [path_square]
      dsimp only
      push_cast
      ring
    rw [← hp1, ← hp2]
    exact hmain

/-- C10: for every in-grid pair of coordinates, the slider validators
computed with the literal bounds-checked scanning loop of
`Board::is_path_clear` terminate with every board access inside the 8x8
grid (result `some _`, never the panic/divergence marker `none`) and agree
with the straight-line path predicate used by the rest of the embedding;
the loop is only ever invoked by these three validators, whose guards make
the from/to pair purely horizontal, purely vertical, or exactly diagonal,
and every other array access of `is_valid_move`, `make_move`,
`is_square_under_attack`, `is_checkmate` and `is_stalemate` uses either the
given coordinates or a loop index below 8. -/
theorem path_loop_totality (b : Board) (fr fc tr tc : Nat)
    (hfr : fr < 8) (hfc : fc < 8) (htr : tr < 8) (htc : tc < 8) :
    is_rook_move_valid_loop b fr fc tr tc = some (is_rook_move_valid b fr fc tr tc) ∧
    is_bishop_move_valid_loop b fr fc tr tc = some (is_bishop_move_valid b fr fc tr tc) ∧
    is_queen_move_valid_loop b fr fc tr tc = some (is_queen_move_valid b fr fc tr tc) := by
  have hrook : is_rook_move_valid_loop b fr fc tr tc
      = some (is_rook_move_valid b fr fc tr tc) := by
    unfold is_rook_move_valid_loop is_rook_move_valid
    by_cases h : fr ≠ tr ∧ fc ≠ tc
    · rw [if_pos h, if_pos h]
    · rw [if_neg h, if_neg h]
      exact is_path_clear_loop_eq b fr fc tr tc hfr hfc htr htc (by unfold aligned; omega)
  have hbishop : is_bishop_move_valid_loop b fr fc tr tc
      = some (is_bishop_move_valid b fr fc tr tc) := by
    unfold is_bishop_move_valid_loop is_bishop_move_valid
    by_cases h : natAbsDiff fr tr ≠ natAbsDiff fc tc
    · rw [if_pos h, if_pos h]
    · rw [if_neg h, if_neg h]
      exact is_path_clear_loop_eq b fr fc tr tc hfr hfc htr htc (by unfold aligned; omega)
  refine ⟨hrook, hbishop, ?_⟩
  unfold is_queen_move_valid_loop is_queen_move_valid
  rw [hrook]
  cases hr : is_rook_move_valid b fr fc tr tc
  · simp [hbishop]
  · simp

theorem path_loop_totality_witness :
    is_rook_move_valid_loop Board.new 7 0 5 0 = some (is_rook_move_valid Board.new 7 0 5 0) ∧
    is_bishop_move_valid_loop Board.new 7 0 5 0 = some (is_bishop_move_valid Board.new 7 0 5 0) ∧
    is_queen_move_valid_loop Board.new 7 0 5 0 = some (is_queen_move_valid Board.new 7 0 5 0) :=
  path_loop_totality Board.new 7 0 5 0 (by decide) (by decide) (by decide) (by decide)

/-! Characterisation of make_move, and claims C2, C8, C9. -/

lemma make_move_fst (b : Board) (fr fc tr tc : Nat) :
    (make_move b fr fc tr tc).1 = is_valid_move b fr fc tr tc := by
  unfold make_move
  split <;> simp_all

lemma make_move_snd_of_invalid (b : Board) (fr fc tr tc : Nat)
    (h : is_valid_move b fr fc tr tc = false) : (make_move b fr fc tr tc).2 = b := by
  unfold make_move
  rw [h]
  simp

lemma make_move_snd_of_valid (b : Board) (fr fc tr tc : Nat)
    (h : is_valid_move b fr fc tr tc = true) :
    (make_move b fr fc tr tc).2 = make_move_apply b fr fc tr tc := by
  unfold make_move
  rw [h]
  simp

lemma make_move_apply_white_to_move (b : Board) (fr fc tr tc : Nat) :
    (make_move_apply b fr fc tr tc).white_to_move = !b.white_to_move := by
  unfold make_move_apply
  simp only [apply_ite Board.white_to_move, set_turn_white_to_move, Board.set_white_to_move,
    set_ep_white_to_move, update_gs_white_to_move, ep_capture_step_white_to_move,
    castle_rook_step_white_to_move, ite_self]

lemma update_eq_spec (b : Board) (p : Piece) (fr fc : Nat) :
    update_game_state_after_move b p fr fc = spec_update_rights b p fr fc := by
  rcases b with ⟨sq, wtm, gs⟩
  rcases gs with ⟨a1, a2, a3, a4, a5, a6, a7⟩
  cases p <;>
    simp only [update_game_state_after_move, spec_update_rights, set_gs] <;>
    first
      | (simp; done)
      | (by_cases h1 : fr = 7 <;> by_cases h2 : fr = 0 <;> by_cases h3 : fc = 0 <;>
          by_cases h4 : fc = 7 <;> simp_all)

lemma make_move_apply_game_state (b : Board) (fr fc tr tc : Nat) :
    (make_move_apply b fr fc tr tc).game_state =
      { white_king_moved := b.game_state.white_king_moved ||
          decide (b.squares fr fc = Piece.KingWhite)
        black_king_moved := b.game_state.black_king_moved ||
          decide (b.squares fr fc = Piece.KingBlack)
        white_rook_queenside_moved := b.game_state.white_rook_queenside_moved ||
          decide (b.squares fr fc = Piece.RookWhite ∧ fr = 7 ∧ fc = 0)
        white_rook_kingside_moved := b.game_state.white_rook_kingside_moved ||
          decide (b.squares fr fc = Piece.RookWhite ∧ fr = 7 ∧ fc = 7)
        black_rook_queenside_moved := b.game_state.black_rook_queenside_moved ||
          decide (b.squares fr fc = Piece.RookBlack ∧ fr = 0 ∧ fc = 0)
        black_rook_kingside_moved := b.game_state.black_rook_kingside_moved ||
          decide (b.squares fr fc = Piece.RookBlack ∧ fr = 0 ∧ fc = 7)
        en_passant_target :=
          if is_pawn (b.squares fr fc) ∧ natAbsDiff fr tr = 2 then
            some ((if (b.squares fr fc).is_white then fr - 1 else fr + 1), fc)
          else none } := by
  unfold make_move_apply
  simp only [update_eq_spec]
  by_cases hp : is_pawn (b.squares fr fc) <;>
    by_cases hk : is_king (b.squares fr fc) <;>
    by_cases hd2 : natAbsDiff fr tr = 2 <;>
    by_cases hcd2 : natAbsDiff fc tc = 2 <;>
    simp [hp, hk, hd2, hcd2, spec_update_rights, set_ep, set_gs, set_turn,
      apply_ite Board.game_state, ite_self]

lemma valid_shape (b : Board) (fr fc tr tc : Nat) (h : is_valid_move b fr fc tr tc = true) :
    is_piece_move_valid b (b.squares fr fc) fr fc tr tc = true := by
  by_contra hc
  rw [Bool.not_eq_true] at hc
  unfold is_valid_move at h
  simp [hc] at h

lemma would_be_false_iff (b : Board) (fr fc tr tc : Nat) :
    would_be_in_check_after_move b fr fc tr tc = false ↔ king_safe_after b fr fc tr tc := by
  unfold would_be_in_check_after_move king_safe_after
  cases hk : find_king (make_move_unchecked b fr fc tr tc) b.white_to_move with
  | none => simp [hk]
  | some p =>
    cases p with
    | mk kr kc => simp [hk]

lemma is_valid_move_eq_of_checks (b : Board) (fr fc tr tc : Nat)
    (h1 : (b.squares fr fc).is_empty = false)
    (h2 : ¬((b.white_to_move ∧ (b.squares fr fc).is_black) ∨
        (!b.white_to_move ∧ (b.squares fr fc).is_white)))
    (h3 : (b.squares fr fc).is_same_color (b.squares tr tc) = false)
    (h4 : is_piece_move_valid b (b.squares fr fc) fr fc tr tc = true) :
    is_valid_move b fr fc tr tc = (!would_be_in_check_after_move b fr fc tr tc) := by
  unfold is_valid_move
  rw [if_neg (by simp [h1]), if_neg h2, if_neg (by simp [h3]), if_neg (by simp [h4])]
  by_cases hw : would_be_in_check_after_move b fr fc tr tc
  · rw [if_pos hw, hw]
    rfl
  · rw [if_neg hw]
    simp [Bool.not_eq_true] at hw
    simp [hw]

/-- C2: for every candidate move that passes the first three checks of
is_valid_move (non-empty piece of the side to move, no self-capture,
piece-specific shape rule), is_valid_move returns true if and only if
applying the move to a scratch copy of the board does not leave the moving
side's own king under attack afterward. -/
theorem valid_iff_king_safe (b : Board) (fr fc tr tc : Nat)
    (h1 : (b.squares fr fc).is_empty = false)
    (h2 : ¬((b.white_to_move ∧ (b.squares fr fc).is_black) ∨
        (!b.white_to_move ∧ (b.squares fr fc).is_white)))
    (h3 : (b.squares fr fc).is_same_color (b.squares tr tc) = false)
    (h4 : is_piece_move_valid b (b.squares fr fc) fr fc tr tc = true) :
    is_valid_move b fr fc tr tc = true ↔ king_safe_after b fr fc tr tc := by
  rw [is_valid_move_eq_of_checks b fr fc tr tc h1 h2 h3 h4]
  rw [Bool.not_eq_true']
  exact would_be_false_iff b fr fc tr tc

theorem valid_iff_king_safe_witness :
    is_valid_move Board.new 7 6 5 5 = true ↔ king_safe_after Board.new 7 6 5 5 :=
  valid_iff_king_safe Board.new 7 6 5 5 (by decide) (by decide) (by decide) (by decide)

/-- C9: the side to move flips exactly once per successful make_move and is
unchanged by a rejected one; since every call in any call sequence is an
instance of this statement, the side to move strictly alternates over
successful moves, and no other operation of the engine writes it. -/
theorem turn_flips_iff_success (b : Board) (fr fc tr tc : Nat) :
    ((make_move b fr fc tr tc).1 = true →
      (make_move b fr fc tr tc).2.white_to_move = !b.white_to_move) ∧
    ((make_move b fr fc tr tc).1 = false →
      (make_move b fr fc tr tc).2.white_to_move = b.white_to_move) := by
  constructor
  · intro h
    rw [make_move_fst] at h
    rw [make_move_snd_of_valid b fr fc tr tc h]
    exact make_move_apply_white_to_move b fr fc tr tc
  · intro h
    rw [make_move_fst] at h
    rw [make_move_snd_of_invalid b fr fc tr tc h]

theorem turn_flips_iff_success_witness :
    (make_move king_board 7 4 7 5).2.white_to_move = !king_board.white_to_move :=
  (turn_flips_iff_success king_board 7 4 7 5).1 (by decide)

lemma gs_flag_le_refl (g : GameState) : gs_flag_le g g :=
  ⟨fun h => h, fun h => h, fun h => h, fun h => h, fun h => h, fun h => h⟩

lemma gs_flag_le_trans {f g h : GameState} (h1 : gs_flag_le f g) (h2 : gs_flag_le g h) :
    gs_flag_le f h :=
  ⟨fun x => h2.1 (h1.1 x), fun x => h2.2.1 (h1.2.1 x), fun x => h2.2.2.1 (h1.2.2.1 x),
   fun x => h2.2.2.2.1 (h1.2.2.2.1 x), fun x => h2.2.2.2.2.1 (h1.2.2.2.2.1 x),
   fun x => h2.2.2.2.2.2 (h1.2.2.2.2.2 x)⟩

lemma gs_flag_le_make_move (b : Board) (fr fc tr tc : Nat) :
    gs_flag_le b.game_state (make_move b fr fc tr tc).2.game_state := by
  unfold make_move
  by_cases hv : is_valid_move b fr fc tr tc
  · rw [if_pos hv]
    dsimp only
    rw [make_move_apply_game_state]
    refine ⟨?_, ?_, ?_, ?_, ?_, ?_⟩ <;> intro h <;> simp [h]
  · rw [if_neg hv]
    exact gs_flag_le_refl b.game_state

lemma gs_flag_le_apply_moves (b : Board) (ms : List (Nat × Nat × Nat × Nat)) :
    gs_flag_le b.game_state (apply_moves b ms).game_state := by
  induction ms generalizing b with
  | nil => exact gs_flag_le_refl b.game_state
  | cons m ms ih =>
    unfold apply_moves
    exact gs_flag_le_trans (gs_flag_le_make_move b m.1 m.2.1 m.2.2.1 m.2.2.2) (ih _)

/-- C8: the six castling-rights flags are monotone along every sequence of
make_move calls (successful or rejected); a successful king move sets that
color's king-moved flag, a successful rook move from the rook's original
starting square sets the matching side-specific rook-moved flag, and a
successful rook move from any other square changes no flag. -/
theorem castling_flags_monotone (b : Board) (ms : List (Nat × Nat × Nat × Nat))
    (fr fc tr tc : Nat) :
    gs_flag_le b.game_state (apply_moves b ms).game_state ∧
    ((make_move b fr fc tr tc).1 = true →
      ((b.squares fr fc = Piece.KingWhite →
          (make_move b fr fc tr tc).2.game_state.white_king_moved = true) ∧
       (b.squares fr fc = Piece.KingBlack →
          (make_move b fr fc tr tc).2.game_state.black_king_moved = true) ∧
       (b.squares fr fc = Piece.RookWhite ∧ fr = 7 ∧ fc = 0 →
          (make_move b fr fc tr tc).2.game_state.white_rook_queenside_moved = true) ∧
       (b.squares fr fc = Piece.RookWhite ∧ fr = 7 ∧ fc = 7 →
          (make_move b fr fc tr tc).2.game_state.white_rook_kingside_moved = true) ∧
       (b.squares fr fc = Piece.RookBlack ∧ fr = 0 ∧ fc = 0 →
          (make_move b fr fc tr tc).2.game_state.black_rook_queenside_moved = true) ∧
       (b.squares fr fc = Piece.RookBlack ∧ fr = 0 ∧ fc = 7 →
          (make_move b fr fc tr tc).2.game_state.black_rook_kingside_moved = true) ∧
       ((b.squares fr fc = Piece.RookWhite ∧ ¬(fr = 7 ∧ (fc = 0 ∨ fc = 7))) ∨
        (b.squares fr fc = Piece.RookBlack ∧ ¬(fr = 0 ∧ (fc = 0 ∨ fc = 7))) →
          castle_flags (make_move b fr fc tr tc).2.game_state
            = castle_flags b.game_state))) := by
  refine ⟨gs_flag_le_apply_moves b ms, ?_⟩
  intro hs
  rw [make_move_fst] at hs
  rw [make_move_snd_of_valid b fr fc tr tc hs]
  rw [make_move_apply_game_state]
  refine ⟨?_, ?_, ?_, ?_, ?_, ?_, ?_⟩ <;> intro h
  · simp [h]
  · simp [h]
  · obtain ⟨hq, h7, h0⟩ := h
    subst h7
    subst h0
    simp [hq]
  · obtain ⟨hq, h7, h0⟩ := h
    subst h7
    subst h0
    simp [hq]
  · obtain ⟨hq, h7, h0⟩ := h
    subst h7
    subst h0
    simp [hq]
  · obtain ⟨hq, h7, h0⟩ := h
    subst h7
    subst h0
    simp [hq]
  · rcases h with ⟨hrw, hno⟩ | ⟨hrb, hno⟩
    · have hq : ¬(fr = 7 ∧ fc = 0) := fun hx => hno ⟨hx.1, Or.inl hx.2⟩
      have hk2 : ¬(fr = 7 ∧ fc = 7) := fun hx => hno ⟨hx.1, Or.inr hx.2⟩
      simp [castle_flags, hrw, hq, hk2]
    · have hq : ¬(fr = 0 ∧ fc = 0) := fun hx => hno ⟨hx.1, Or.inl hx.2⟩
      have hk2 : ¬(fr = 0 ∧ fc = 7) := fun hx => hno ⟨hx.1, Or.inr hx.2⟩
      simp [castle_flags, hrb, hq, hk2]

theorem castling_flags_monotone_witness :
    (make_move king_board 7 4 7 5).2.game_state.white_king_moved = true :=
  ((castling_flags_monotone king_board [] 7 4 7 5).2 (by decide)).1 (by decide)

/-! Claims C5 (pawn shape) and C4 (en-passant target). -/

lemma is_pawn_move_valid_iff (b : Board) (p : Piece) (fr fc tr tc : Nat) :
    is_pawn_move_valid b p fr fc tr tc = true ↔ pawn_shape_spec b p fr fc tr tc := by
  simp only [is_pawn_move_valid, pawn_shape_spec, pawn_dir, pawn_start_row]
  cases hw : p.is_white <;> simp [hw] <;>
    rcases hep : b.game_state.en_passant_target with _ | ⟨er, ec⟩ <;>
    cases hE : (b.squares tr tc).is_empty <;>
    (try simp [hep, hE]) <;>
    (try simp only [natAbsDiff]) <;>
    first
      | omega
      | (split <;> omega)

/-- C5 (amended): a pawn move is shape-legal exactly when it is a one-square
forward move onto an empty square, a two-square forward move from the start
row onto an empty destination (intermediate square not checked), or a
one-square diagonal forward move whose destination is non-empty (either
color) or equals the en-passant target. The claim's original phrasing
(destination holds an *enemy* piece) is refuted by pawn_shape_claim_cex. -/
theorem pawn_shape_characterization (b : Board) (p : Piece) (fr fc tr tc : Nat)
    (_hp : p = Piece.PawnWhite ∨ p = Piece.PawnBlack) :
    is_pawn_move_valid b p fr fc tr tc = true ↔ pawn_shape_spec b p fr fc tr tc :=
  is_pawn_move_valid_iff b p fr fc tr tc

theorem pawn_shape_characterization_witness :
    is_pawn_move_valid Board.new Piece.PawnWhite 6 4 5 4 = true ↔
      pawn_shape_spec Board.new Piece.PawnWhite 6 4 5 4 :=
  pawn_shape_characterization Board.new Piece.PawnWhite 6 4 5 4 (Or.inl rfl)

/-- C5 counterexample: on cex_board the diagonal pawn move a2-b3 onto a
*friendly* rook is accepted by is_pawn_move_valid, so the claim's diagonal
case (enemy piece or en-passant target) does not characterise the code. -/
theorem pawn_shape_claim_cex :
    is_pawn_move_valid cex_board Piece.PawnWhite 6 0 5 1 = true ∧
    ¬ pawn_shape_claim cex_board Piece.PawnWhite 6 0 5 1 := by
  constructor
  · decide
  · decide

lemma pawn_double_facts (b : Board) (p : Piece) (fr fc tr tc : Nat)
    (h : is_pawn_move_valid b p fr fc tr tc = true) (h2 : natAbsDiff fr tr = 2) :
    tc = fc ∧ ((p.is_white = true ∧ fr = 6 ∧ tr = 4) ∨ (p.is_white = false ∧ fr = 1 ∧ tr = 3)) := by
  rw [is_pawn_move_valid_iff] at h
  unfold pawn_shape_spec pawn_dir pawn_start_row at h
  unfold natAbsDiff at h2
  cases hw : p.is_white <;> simp [hw] at h <;> simp [hw] <;>
    rcases h with h | h | h <;>
    [ (obtain ⟨ht, hrow, -⟩ := h; omega);
      (obtain ⟨ht, hs, hrow, -⟩ := h; omega);
      (obtain ⟨ht, hrow, -⟩ := h; omega);
      (obtain ⟨ht, hrow, -⟩ := h; omega);
      (obtain ⟨ht, hs, hrow, -⟩ := h; omega);
      (obtain ⟨ht, hrow, -⟩ := h; omega) ]

/-- C4: a rejected move leaves the en-passant target unchanged; after a
successful move the target is some square exactly when the move was a pawn
advancing two squares from its start rank, and then it is the intermediate
square (fr + tr) / 2 that was passed over. -/
theorem en_passant_target_iff_double_push (b : Board) (fr fc tr tc : Nat) :
    ((make_move b fr fc tr tc).1 = false →
      (make_move b fr fc tr tc).2.game_state.en_passant_target
        = b.game_state.en_passant_target) ∧
    ((make_move b fr fc tr tc).1 = true →
      (make_move b fr fc tr tc).2.game_state.en_passant_target =
        (if double_push_spec b fr fc tr tc then some ((fr + tr) / 2, fc) else none)) := by
  constructor
  · intro h
    rw [make_move_fst] at h
    rw [make_move_snd_of_invalid b fr fc tr tc h]
  · intro h
    rw [make_move_fst] at h
    rw [make_move_snd_of_valid b fr fc tr tc h, make_move_apply_game_state]
    dsimp only
    have hsh := valid_shape b fr fc tr tc h
    by_cases hc : is_pawn (b.squares fr fc) ∧ natAbsDiff fr tr = 2
    · rw [if_pos hc]
      have hpm : is_pawn_move_valid b (b.squares fr fc) fr fc tr tc = true := by
        rcases hc.1 with hp | hp <;>
          · unfold is_piece_move_valid at hsh
            rw [hp] at hsh ⊢
            exact hsh
      have hd := pawn_double_facts b (b.squares fr fc) fr fc tr tc hpm hc.2
      rcases hd.2 with ⟨hw, h6, h4⟩ | ⟨hw, h1, h3⟩
      · have hdp : double_push_spec b fr fc tr tc := by
          rcases hc.1 with hp | hp
          · exact Or.inl ⟨hp, h6, h4, hd.1⟩
          · rw [hp] at hw
            simp [Piece.is_white] at hw
        rw [if_pos hdp, hw, h6, h4]
        rfl
      · have hdp : double_push_spec b fr fc tr tc := by
          rcases hc.1 with hp | hp
          · rw [hp] at hw
            simp [Piece.is_white] at hw
          · exact Or.inr ⟨hp, h1, h3, hd.1⟩
        rw [if_pos hdp, hw, h1, h3]
        rfl
    · rw [if_neg hc, if_neg ?neg]
      case neg =>
        intro hdp
        apply hc
        rcases hdp with ⟨hp, h6, h4, htcfc⟩ | ⟨hp, h1, h3, htcfc⟩
        · subst h6
          subst h4
          exact ⟨Or.inl hp, by decide⟩
        · subst h1
          subst h3
          exact ⟨Or.inr hp, by decide⟩

theorem en_passant_target_iff_double_push_witness :
    (make_move Board.new 6 4 4 4).2.game_state.en_passant_target =
      (if double_push_spec Board.new 6 4 4 4 then some ((6 + 4) / 2, 4) else none) :=
  (en_passant_target_iff_double_push Board.new 6 4 4 4).2 (by decide)

/-! Claim C7: attack detection characterisation. -/

lemma can_piece_attack_iff (b : Board) (r c row col : Nat)
    (hne : (b.squares r c).is_empty = false) :
    can_piece_attack b (b.squares r c) r c row col = true ↔ attack_rule b r c row col := by
  unfold can_piece_attack attack_rule
  cases hpc : b.squares r c
  case Empty =>
    simp [Piece.is_empty] at hne
    exact absurd hpc hne
  all_goals simp

/-- C7: is_square_under_attack returns true exactly when some occupied
square of the attacking color holds a piece that attacks the target under
the claim's rules: pawns attack one square diagonally forward regardless of
occupancy, kings attack the squares within one row and one column (never by
castling), and rook, knight, bishop and queen attack exactly the squares
their movement shape rules (including path-clear) permit. The function is
pure in this embedding, so it cannot mutate the board. -/
theorem under_attack_iff_exists_attacker (b : Board) (row col : Nat) (by_white : Bool) :
    is_square_under_attack b row col by_white = true ↔ attack_spec b row col by_white := by
  unfold is_square_under_attack attack_spec
  simp only [List.any_eq_true, List.mem_range]
  constructor
  · rintro ⟨r, hr, c, hc, hbody⟩
    by_cases h1 : (b.squares r c).is_empty
    · rw [if_pos h1] at hbody
      simp at hbody
    · rw [if_neg h1] at hbody
      by_cases h2 : (by_white ∧ (b.squares r c).is_white) ∨ (!by_white ∧ (b.squares r c).is_black)
      · rw [if_pos h2] at hbody
        rw [Bool.not_eq_true] at h1
        refine ⟨⟨r, hr⟩, ⟨c, hc⟩, h1, ?_, (can_piece_attack_iff b r c row col h1).mp hbody⟩
        cases hbw : by_white
        · rcases h2 with ⟨hh, _⟩ | ⟨_, hh⟩
          · rw [hbw] at hh
            simp at hh
          · simpa using hh
        · rcases h2 with ⟨_, hh⟩ | ⟨hh, _⟩
          · simpa using hh
          · rw [hbw] at hh
            simp at hh
      · rw [if_neg h2] at hbody
        simp at hbody
  · rintro ⟨r, c, hne, hcol, hrule⟩
    refine ⟨r, r.isLt, c, c.isLt, ?_⟩
    rw [if_neg (by simp [hne]), if_pos ?cond]
    case cond =>
      cases hbw : by_white
      · rw [hbw] at hcol
        simp at hcol
        exact Or.inr ⟨by simp, hcol⟩
      · rw [hbw] at hcol
        simp at hcol
        exact Or.inl ⟨by simp, hcol⟩
    exact (can_piece_attack_iff b r c row col hne).mpr hrule

/-! Claim C6: en-passant capture side effects. -/

/-- C6: when a successful move is a pawn moving onto the current en-passant
target (whose row is 2 or 5, the only rows make_move ever assigns to it),
the square one rank behind the target is emptied and the capturing pawn
ends up on the destination square. -/
theorem en_passant_capture_behavior (b : Board) (fr fc er ec : Nat)
    (hep : b.game_state.en_passant_target = some (er, ec))
    (her : er = 2 ∨ er = 5)
    (hpw : is_pawn (b.squares fr fc))
    (hmk : (make_move b fr fc er ec).1 = true) :
    (make_move b fr fc er ec).2.squares
        (if (b.squares fr fc).is_white then er + 1 else er - 1) ec = Piece.Empty ∧
    (make_move b fr fc er ec).2.squares er ec = b.squares fr fc := by
  rw [make_move_fst] at hmk
  rw [make_move_snd_of_valid b fr fc er ec hmk]
  have hsh := valid_shape b fr fc er ec hmk
  unfold is_piece_move_valid at hsh
  rcases hpw with hp | hp
  · rw [hp] at hsh
    have hpm : is_pawn_move_valid b Piece.PawnWhite fr fc er ec = true := hsh
    have hshape := (is_pawn_move_valid_iff b Piece.PawnWhite fr fc er ec).mp hpm
    unfold pawn_shape_spec pawn_dir pawn_start_row at hshape
    simp [Piece.is_white] at hshape
    have hfr : fr = er + 1 := by
      rcases hshape with ⟨-, h, -⟩ | ⟨-, h6, h, -⟩ | ⟨-, h, -⟩ <;> omega
    subst hfr
    have hd : natAbsDiff (er + 1) er ≠ 2 := by
      unfold natAbsDiff
      omega
    have her0 : er ≠ 0 := by omega
    unfold make_move_apply
    simp [hp, hep, hd, her0, Board.set, update_game_state_after_move, ep_capture_step,
      set_ep, set_gs, set_turn, Piece.is_white, Piece.is_black, is_pawn, is_king]
  · rw [hp] at hsh
    have hpm : is_pawn_move_valid b Piece.PawnBlack fr fc er ec = true := hsh
    have hshape := (is_pawn_move_valid_iff b Piece.PawnBlack fr fc er ec).mp hpm
    unfold pawn_shape_spec pawn_dir pawn_start_row at hshape
    simp [Piece.is_white] at hshape
    have hfr : fr = er - 1 := by
      rcases hshape with ⟨-, h, -⟩ | ⟨-, h6, h, -⟩ | ⟨-, h, -⟩ <;> omega
    subst hfr
    have hd : natAbsDiff (er - 1) er ≠ 2 := by
      unfold natAbsDiff
      omega
    have her7 : er ≠ 7 := by omega
    have hne : er - 1 ≠ er := by omega
    have hne2 : er ≠ er - 1 := by omega
    unfold make_move_apply
    simp [hp, hep, hd, her7, hne, hne2, Board.set, update_game_state_after_move,
      ep_capture_step, set_ep, set_gs, set_turn, Piece.is_white, Piece.is_black, is_pawn,
      is_king]

theorem en_passant_capture_behavior_witness :
    (make_move ep_board 3 4 2 3).2.squares 3 3 = Piece.Empty ∧
    (make_move ep_board 3 4 2 3).2.squares 2 3 = ep_board.squares 3 4 := by
  have h := en_passant_capture_behavior ep_board 3 4 2 3 (by decide) (by decide) (by decide)
    (by decide)
  simpa using h

/-! Claim C3: castling shape-legality characterisation. -/

lemma forall_two_between (P : Nat → Prop) : (∀ c, 4 < c → c < 7 → P c) ↔ P 5 ∧ P 6 := by
  constructor
  · intro h
    exact ⟨h 5 (by omega) (by omega), h 6 (by omega) (by omega)⟩
  · rintro ⟨p5, p6⟩ c h1 h2
    have hc : c = 5 ∨ c = 6 := by omega
    rcases hc with rfl | rfl <;> assumption

lemma forall_three_between (P : Nat → Prop) : (∀ c, 0 < c → c < 4 → P c) ↔ P 1 ∧ P 2 ∧ P 3 := by
  constructor
  · intro h
    exact ⟨h 1 (by omega) (by omega), h 2 (by omega) (by omega), h 3 (by omega) (by omega)⟩
  · rintro ⟨p1, p2, p3⟩ c h1 h2
    have hc : c = 1 ∨ c = 2 ∨ c = 3 := by omega
    rcases hc with rfl | rfl | rfl <;> assumption

lemma forall_mem_three (P : Nat → Prop) (a b c : Nat) :
    (∀ x, x = a ∨ x = b ∨ x = c → P x) ↔ P a ∧ P b ∧ P c := by
  constructor
  · intro h
    exact ⟨h a (Or.inl rfl), h b (Or.inr (Or.inl rfl)), h c (Or.inr (Or.inr rfl))⟩
  · rintro ⟨pa, pb, pc⟩ x hx
    rcases hx with rfl | rfl | rfl <;> assumption


set_option maxHeartbeats 2000000 in
/-- C3: a king move of zero rows and exactly two columns is shape-legal if
and only if all castling preconditions hold simultaneously: a king of some
color on its original square, king never moved, chosen side's rook (column
7 kingside, column 0 queenside) never moved and physically present, the
squares strictly between king and rook empty, and none of the king's
origin, crossed square, and destination attacked by the opposing color on
the pre-move board. -/
theorem castle_shape_iff_preconditions (b : Board) (fr fc tr tc : Nat)
    (htr : tr = fr) (hcd : natAbsDiff fc tc = 2) :
    is_king_move_valid b fr fc tr tc = true ↔ castling_pre b fr fc tc := by
  rw [htr]
  unfold is_king_move_valid
  have h0 : natAbsDiff fr fr = 0 := by
    unfold natAbsDiff
    omega
  rw [h0, hcd]
  rw [if_neg (by omega), if_pos (by omega)]
  by_cases hfc : fc = 4
  · subst hfc
    have htc : tc = 2 ∨ tc = 6 := by
      unfold natAbsDiff at hcd
      omega
    unfold can_castle castling_pre
    by_cases hfr7 : fr = 7
    · subst hfr7
      rcases htc with rfl | rfl <;> cases hpc : b.squares 7 4 <;>
        simp [hpc, is_king, Piece.is_white, rangeIncl, List.range', Bool.exists_bool,
          forall_two_between, forall_three_between, forall_mem_three] <;>
        tauto
    · by_cases hfr0 : fr = 0
      · subst hfr0
        rcases htc with rfl | rfl <;> cases hpc : b.squares 0 4 <;>
          simp [hpc, is_king, Piece.is_white, rangeIncl, List.range', Bool.exists_bool,
            forall_two_between, forall_three_between, forall_mem_three] <;>
          tauto
      · rcases htc with rfl | rfl <;> cases hpc : b.squares fr 4 <;>
          simp [hpc, hfr7, hfr0, is_king, Piece.is_white, rangeIncl, List.range',
            Bool.exists_bool, forall_two_between, forall_three_between, forall_mem_three]
  · unfold can_castle castling_pre
    cases hpc : b.squares fr fc <;>
      simp [hpc, hfc, is_king, Piece.is_white, Bool.exists_bool]

theorem castle_shape_iff_preconditions_witness :
    is_king_move_valid castle_board 7 4 7 6 = true ↔ castling_pre castle_board 7 4 6 :=
  castle_shape_iff_preconditions castle_board 7 4 7 6 rfl (by decide)

/-! Claim C1: atomicity and refinement of make_move. -/

lemma apply_eq_spec (b : Board) (fr fc tr tc : Nat)
    (h : is_valid_move b fr fc tr tc = true) :
    make_move_apply b fr fc tr tc = spec_apply_move b fr fc tr tc := by
  have hsh := valid_shape b fr fc tr tc h
  unfold is_piece_move_valid at hsh
  unfold make_move_apply spec_apply_move ep_capture_step castle_rook_step
  cases hpc : b.squares fr fc <;> rw [hpc] at hsh <;>
    simp only [update_eq_spec]
  case PawnWhite =>
    have hpm : is_pawn_move_valid b Piece.PawnWhite fr fc tr tc = true := hsh
    rcases hep : b.game_state.en_passant_target with _ | ⟨er, ec⟩
    · by_cases hd2 : natAbsDiff fr tr = 2
      · have hd := pawn_double_facts b Piece.PawnWhite fr fc tr tc hpm hd2
        rcases hd.2 with ⟨-, rfl, rfl⟩ | ⟨hw, -⟩
        · simp [hep, hd2, Piece.is_white, Piece.is_black, is_pawn, is_king]
        · simp [Piece.is_white] at hw
      · simp [hep, hd2, Piece.is_white, Piece.is_black, is_pawn, is_king]
    · by_cases heq : tr = er ∧ tc = ec
      · obtain ⟨h1, h2⟩ := heq
        subst h1
        subst h2
        by_cases hd2 : natAbsDiff fr tr = 2
        · have hd := pawn_double_facts b Piece.PawnWhite fr fc tr tc hpm hd2
          rcases hd.2 with ⟨-, rfl, rfl⟩ | ⟨hw, -⟩
          · simp [hep, hd2, Piece.is_white, Piece.is_black, is_pawn, is_king]
          · simp [Piece.is_white] at hw
        · simp [hep, hd2, Piece.is_white, Piece.is_black, is_pawn, is_king]
      · have heq2 : ¬(er = tr ∧ ec = tc) := fun hx => heq ⟨hx.1.symm, hx.2.symm⟩
        by_cases hd2 : natAbsDiff fr tr = 2
        · have hd := pawn_double_facts b Piece.PawnWhite fr fc tr tc hpm hd2
          rcases hd.2 with ⟨-, rfl, rfl⟩ | ⟨hw, -⟩
          · simp [hep, hd2, heq, heq2, Piece.is_white, Piece.is_black, is_pawn, is_king]
          · simp [Piece.is_white] at hw
        · simp [hep, hd2, heq, heq2, Piece.is_white, Piece.is_black, is_pawn, is_king]
  case PawnBlack =>
    have hpm : is_pawn_move_valid b Piece.PawnBlack fr fc tr tc = true := hsh
    rcases hep : b.game_state.en_passant_target with _ | ⟨er, ec⟩
    · by_cases hd2 : natAbsDiff fr tr = 2
      · have hd := pawn_double_facts b Piece.PawnBlack fr fc tr tc hpm hd2
        rcases hd.2 with ⟨hw, -⟩ | ⟨-, rfl, rfl⟩
        · simp [Piece.is_white] at hw
        · simp [hep, hd2, Piece.is_white, Piece.is_black, is_pawn, is_king]
      · simp [hep, hd2, Piece.is_white, Piece.is_black, is_pawn, is_king]
    · by_cases heq : tr = er ∧ tc = ec
      · obtain ⟨h1, h2⟩ := heq
        subst h1
        subst h2
        by_cases hd2 : natAbsDiff fr tr = 2
        · have hd := pawn_double_facts b Piece.PawnBlack fr fc tr tc hpm hd2
          rcases hd.2 with ⟨hw, -⟩ | ⟨-, rfl, rfl⟩
          · simp [Piece.is_white] at hw
          · simp [hep, hd2, Piece.is_white, Piece.is_black, is_pawn, is_king]
        · simp [hep, hd2, Piece.is_white, Piece.is_black, is_pawn, is_king]
      · have heq2 : ¬(er = tr ∧ ec = tc) := fun hx => heq ⟨hx.1.symm, hx.2.symm⟩
        by_cases hd2 : natAbsDiff fr tr = 2
        · have hd := pawn_double_facts b Piece.PawnBlack fr fc tr tc hpm hd2
          rcases hd.2 with ⟨hw, -⟩ | ⟨-, rfl, rfl⟩
          · simp [Piece.is_white] at hw
          · simp [hep, hd2, heq, heq2, Piece.is_white, Piece.is_black, is_pawn, is_king]
        · simp [hep, hd2, heq, heq2, Piece.is_white, Piece.is_black, is_pawn, is_king]
  all_goals simp [is_pawn, is_king, Piece.is_white, Piece.is_black]

/-- C1: make_move is atomic. If it returns false the returned board is the
input board unchanged (squares, side to move, castling flags and en-passant
target all identical); if it returns true the returned board is exactly the
result of applying spec section 4.4 steps 1-7 (spec_apply_move). -/
theorem make_move_atomic (b : Board) (fr fc tr tc : Nat) :
    ((make_move b fr fc tr tc).1 = false → (make_move b fr fc tr tc).2 = b) ∧
    ((make_move b fr fc tr tc).1 = true →
      (make_move b fr fc tr tc).2 = spec_apply_move b fr fc tr tc) := by
  constructor
  · intro h
    rw [make_move_fst] at h
    exact make_move_snd_of_invalid b fr fc tr tc h
  · intro h
    rw [make_move_fst] at h
    rw [make_move_snd_of_valid b fr fc tr tc h]
    exact apply_eq_spec b fr fc tr tc h

theorem make_move_atomic_witness :
    (make_move Board.new 0 0 0 0).2 = Board.new ∧
    (make_move Board.new 6 4 4 4).2 = spec_apply_move Board.new 6 4 4 4 :=
  ⟨(make_move_atomic Board.new 0 0 0 0).1 (by decide),
   (make_move_atomic Board.new 6 4 4 4).2 (by decide)⟩
